import Mathlib

/-!
Verification of the document session manager of `pdfsmarteditor`
(`api/deps.py`, `api/storage.py`).

The Python subsystem keeps a process-local cache of open document handles
(the module-level `sessions` dict), a durable sqlite table of session
records (`SessionStore`), and a content directory holding one file per
session.  We embed it shallowly: the mutable world (cache, table, file
system, handle table) is an explicit `World` value threaded through each
operation, Python exceptions become `Except`-style results paired with the
world in which the exception escapes, timestamps are integers, and the
document library (`fitz` behind `DocumentManager`) is modelled by a file
content that is either a valid PDF with a page count or invalid bytes.
-/

namespace PdfSmartEditor

/-- Timestamps (`datetime` values in the source) as integers. -/
abbrev Time := Int

/-- Content of a file on disk: a PDF that `fitz.open` accepts, carrying its
page count, or bytes that fail to open (`PDFLoadError`). -/
inductive FileData where
  | pdf (pages : Nat)
  | invalid
deriving DecidableEq

/-- The file system: an association list from paths to file contents. -/
abbrev FS := List (String × FileData)

/-- Read the file at a path (`os.path.exists` + open). -/
def fsGet : FS → String → Option FileData
  | [], _ => none
  | (q, d) :: rest, p => if q = p then some d else fsGet rest p

/-- Remove the file at a path if present (`os.remove` guarded by
`os.path.exists`); removing an absent path is a no-op. -/
def fsRemove : FS → String → FS
  | [], _ => []
  | (q, d) :: rest, p => if q = p then fsRemove rest p else (q, d) :: fsRemove rest p

/-- Create or overwrite the file at a path (`shutil.copy` destination,
`doc.save`). -/
def fsSet (fs : FS) (p : String) (d : FileData) : FS :=
  (p, d) :: fsRemove fs p

/-- Atomic rename-over (`os.replace src dst`): the content at `src` replaces
whatever is at `dst` and `src` disappears.  Total; our callers only invoke it
with `src` present. -/
def fsReplace (fs : FS) (src dst : String) : FS :=
  match fsGet fs src with
  | some d => fsSet (fsRemove fs src) dst d
  | none => fs

/-- A row of the durable `sessions` table (`SessionRecord` dataclass). -/
structure SessionRecord where
  session_id : String
  filename : String
  storage_path : String
  created_at : Time
  last_modified : Time
deriving DecidableEq

/-- The durable metadata table, keyed by `session_id` (primary key). -/
abbrev Store := List SessionRecord

/-- `SessionStore.get`: first row with the given id, if any. -/
def storeGet : Store → String → Option SessionRecord
  | [], _ => none
  | r :: rest, sid => if r.session_id = sid then some r else storeGet rest sid

/-- `SessionStore.delete`: `DELETE FROM sessions WHERE session_id = ?`;
idempotent, deleting an absent id is not an error. -/
def storeDelete (store : Store) (sid : String) : Store :=
  store.filter (fun r => r.session_id ≠ sid)

/-- `SessionStore.save`: `INSERT OR REPLACE` on the primary key. -/
def storeSave (store : Store) (r : SessionRecord) : Store :=
  r :: storeDelete store r.session_id

/-- `SessionStore.update_last_modified`:
`UPDATE sessions SET last_modified = ? WHERE session_id = ?`.  A plain SQL
update: rows matching the id get the new timestamp, all other rows and all
other columns are untouched, and an id matching zero rows makes the
statement a silent no-op — sqlite reports success, nothing is raised. -/
def storeUpdateLastModified (store : Store) (sid : String) (t : Time) : Store :=
  store.map (fun r => if r.session_id = sid then { r with last_modified := t } else r)

/-- State of one `DocumentManager`/`fitz` handle: the current in-memory
page count of its document and whether it is still open. -/
structure HandleState where
  pages : Nat
  isOpen : Bool
deriving DecidableEq

/-- The process-wide table of document handles ever issued, by handle id. -/
abbrev Handles := List (Nat × HandleState)

/-- Look up a handle's state. -/
def handleLookup : Handles → Nat → Option HandleState
  | [], _ => none
  | (k, st) :: rest, h => if k = h then some st else handleLookup rest h

/-- `DocumentManager.close_document`: mark the handle closed. -/
def closeHandle : Handles → Nat → Handles
  | [], _ => []
  | (k, st) :: rest, h =>
      if k = h then (k, { st with isOpen := false }) :: closeHandle rest h
      else (k, st) :: closeHandle rest h

/-- Page count of the live document behind a handle
(`len(doc_manager.get_document())`); 0 for an unknown handle. -/
def handlePages (hs : Handles) (h : Nat) : Nat :=
  match handleLookup hs h with
  | some st => st.pages
  | none => 0

/-- An in-memory cache entry: the dict built by `build_session_data`.
The helper fields hold the handle they are bound to (`Editor(doc)` etc.)
when constructed, `none` when the Python code stores `None`. -/
structure SessionData where
  id : String
  filename : String
  storage_path : String
  document_manager : Nat
  created_at : Time
  last_modified : Time
  page_count : Nat
  editor : Option Nat
  page_manipulator : Option Nat
  metadata_editor : Option Nat
deriving DecidableEq

/-- The in-process `sessions` dict: association list from id to entry. -/
abbrev Cache := List (String × SessionData)

/-- Dict lookup (`sessions[session_id]`, `session_id in sessions`). -/
def cacheGet : Cache → String → Option SessionData
  | [], _ => none
  | (k, s) :: rest, sid => if k = sid then some s else cacheGet rest sid

/-- Dict removal (`sessions.pop(session_id)` after a membership test). -/
def cacheRemove (c : Cache) (sid : String) : Cache :=
  c.filter (fun kv => kv.1 ≠ sid)

/-- Dict assignment (`sessions[session_id] = session`): one slot per key,
assignment replaces any previous entry. -/
def cachePut (c : Cache) (sid : String) (s : SessionData) : Cache :=
  (sid, s) :: cacheRemove c sid

/-- The whole mutable world of the session manager. -/
structure World where
  sessions : Cache
  store : Store
  fs : FS
  handles : Handles
  nextHandle : Nat
  now : Time
deriving DecidableEq

/-- Errors escaping the lifecycle operations: `HTTPException(404)`,
`PDFLoadError`, `PDFSaveError`, and OS-level errors such as `shutil.copy`
of a missing source. -/
inductive ApiError where
  | notFound
  | loadError
  | saveError
  | ioError
deriving DecidableEq

/-- The content directory (`STORAGE_DIR` in `api/storage.py`). -/
def STORAGE_DIR : String := "storage"

/-- Character-level `os.path.basename`: keep the run of characters after
the last path separator.  `acc` is the current component. -/
def basenameChars : List Char → List Char → List Char
  | [], acc => acc
  | c :: rest, acc =>
      if c = '/' then basenameChars rest [] else basenameChars rest (acc ++ [c])

/-- `sanitize_filename` in `api/deps.py`: `os.path.basename(filename)`. -/
def sanitize_filename (filename : String) : String :=
  ⟨basenameChars filename.data []⟩

/-- The storage path `create_session` composes:
`str(STORAGE_DIR / f"{session_id}_{safe_filename}")`. -/
def storagePathFor (session_id filename : String) : String :=
  STORAGE_DIR ++ "/" ++ (session_id ++ "_" ++ sanitize_filename filename)

/-- `DocumentManager().load_pdf(path)` followed by `get_document`:
open the file at `path`, issuing a fresh open handle carrying the
document's page count; a missing or invalid file raises `PDFLoadError`. -/
def openDocument (w : World) (path : String) : Except ApiError (Nat × Nat) × World :=
  match fsGet w.fs path with
  | some (.pdf n) =>
      (.ok (w.nextHandle, n),
        { w with
            handles := (w.nextHandle, ⟨n, true⟩) :: w.handles
            nextHandle := w.nextHandle + 1 })
  | _ => (.error .loadError, w)

/-- `build_session_data`: load the document, read its page count, and build
the session dict; the editing helpers are bound to the document only when
`page_count > 0`, otherwise they are `None`. -/
def build_session_data (w : World) (session_id filename storage_path : String)
    (created_at last_modified : Time) : Except ApiError SessionData × World :=
  match openDocument w storage_path with
  | (.error e, w') => (.error e, w')
  | (.ok (h, n), w') =>
      (.ok
        { id := session_id
          filename := filename
          storage_path := storage_path
          document_manager := h
          created_at := created_at
          last_modified := last_modified
          page_count := n
          editor := if n > 0 then some h else none
          page_manipulator := if n > 0 then some h else none
          metadata_editor := if n > 0 then some h else none }, w')

/-- `get_session` (Resolve): return the cached entry if present; otherwise
load the record (404 when absent), rebuild the entry from the record's
storage path, cache it, and return it. -/
def get_session (w : World) (session_id : String) : Except ApiError SessionData × World :=
  match cacheGet w.sessions session_id with
  | some s => (.ok s, w)
  | none =>
      match storeGet w.store session_id with
      | none => (.error .notFound, w)
      | some record =>
          match build_session_data w record.session_id record.filename
              record.storage_path record.created_at record.last_modified with
          | (.error e, w') => (.error e, w')
          | (.ok session, w') =>
              (.ok session, { w' with sessions := cachePut w'.sessions session_id session })

/-- `create_session` (Create).  The fresh `uuid.uuid4()` id is a parameter.
`shutil.copy` of a missing source raises before the `try` block, so neither
the `except` cleanup nor the `finally` cleanup runs in that case.  Inside
the `try`, any failure removes the copied file at `storage_path`; the
`finally` clause always removes the caller's input file at `file_path`. -/
def create_session (w : World) (file_path filename session_id : String) :
    Except ApiError String × World :=
  let safe_filename := sanitize_filename filename
  let storage_path := storagePathFor session_id filename
  match fsGet w.fs file_path with
  | none => (.error .ioError, w)
  | some content =>
      let w1 := { w with fs := fsSet w.fs storage_path content }
      match build_session_data w1 session_id safe_filename storage_path w1.now w1.now with
      | (.error e, w2) =>
          let w3 := { w2 with fs := fsRemove w2.fs storage_path }
          (.error e, { w3 with fs := fsRemove w3.fs file_path })
      | (.ok session, w2) =>
          let record : SessionRecord :=
            { session_id := session_id
              filename := safe_filename
              storage_path := storage_path
              created_at := w1.now
              last_modified := w1.now }
          let w3 := { w2 with store := storeSave w2.store record }
          let w4 := { w3 with sessions := cachePut w3.sessions session_id session }
          (.ok session_id, { w4 with fs := fsRemove w4.fs file_path })

/-- `delete_session` (Delete): when the id is cached, pop the entry, close
its handle, and remove the file at its storage path; then in every case
delete the metadata record. -/
def delete_session (w : World) (session_id : String) : World :=
  let w1 :=
    match cacheGet w.sessions session_id with
    | some session =>
        { w with
            sessions := cacheRemove w.sessions session_id
            handles := closeHandle w.handles session.document_manager
            fs := fsRemove w.fs session.storage_path }
    | none => w
  { w1 with store := storeDelete w1.store session_id }

/-- The reaping condition of `cleanup_stale_sessions`: `last_modified`
strictly before the cutoff and no live cache entry. -/
def staleCold (sessions : Cache) (cutoff : Time) (r : SessionRecord) : Bool :=
  decide (r.last_modified < cutoff) && (cacheGet sessions r.session_id).isNone

/-- `cleanup_stale_sessions` (ReapStale): snapshot all records, and for each
stale record with no live cache entry remove its content file and delete its
row.  The TTL (`SESSION_TTL_HOURS`) is a parameter. -/
def cleanup_stale_sessions (w : World) (ttl : Time) : World :=
  let cutoff := w.now - ttl
  w.store.foldl
    (fun acc r =>
      if staleCold w.sessions cutoff r then
        { acc with
            fs := fsRemove acc.fs r.storage_path
            store := storeDelete acc.store r.session_id }
      else acc)
    w

/-- Primitive effects performed by `persist_session_document`, recorded in
program order to state in which order the disk and the durable store are
touched. -/
inductive Ev where
  | savePdf (handle : Nat) (path : String)
  | replaceFile (src dst : String)
  | removeFile (path : String)
  | storeUpdateLM (id : String) (t : Time)
deriving DecidableEq

/-- Recognise the atomic rename (`os.replace`). -/
def Ev.isReplace : Ev → Bool
  | .replaceFile _ _ => true
  | _ => false

/-- Recognise the durable `last_modified` update. -/
def Ev.isStoreUpdate : Ev → Bool
  | .storeUpdateLM _ _ => true
  | _ => false

/-- Every `q`-event of the trace comes strictly after every `p`-event. -/
def tracedAfter (tr : List Ev) (p q : Ev → Bool) : Prop :=
  ∀ i j : Fin tr.length, p (tr.get i) = true → q (tr.get j) = true → i.val < j.val

/-- `persist_session_document` (Persist): resolve the entry, save the live
document to `storage_path + ".tmp"`, atomically rename it over
`storage_path`, then update the in-memory entry and the durable
`last_modified`.  Whether `doc_manager.save_pdf` succeeds is the oracle
`saveOk`; on save failure the temporary file is removed and the error
re-raised.  The returned trace records the effects in program order. -/
def persist_session_document (w : World) (session_id : String) (saveOk : Bool) :
    Except ApiError SessionData × World × List Ev :=
  match get_session w session_id with
  | (.error e, w1) => (.error e, w1, [])
  | (.ok session, w1) =>
      let storage_path := session.storage_path
      let h := session.document_manager
      let temp_path := storage_path ++ ".tmp"
      if saveOk then
        let pages := handlePages w1.handles h
        let w2 := { w1 with fs := fsSet w1.fs temp_path (.pdf pages) }
        let w3 := { w2 with fs := fsReplace w2.fs temp_path storage_path }
        let session' := { session with last_modified := w3.now, page_count := pages }
        let w4 := { w3 with sessions := cachePut w3.sessions session_id session' }
        let w5 := { w4 with store := storeUpdateLastModified w4.store session_id w4.now }
        (.ok session', w5,
          [.savePdf h temp_path, .replaceFile temp_path storage_path,
            .storeUpdateLM session_id w4.now])
      else
        (.error .saveError, { w1 with fs := fsRemove w1.fs temp_path },
          [.removeFile temp_path])

/-! ### Derived definitions used by the statements and witnesses -/

/-- The entry `build_session_data` constructs once the document at the
storage path opens with `n` pages and the next fresh handle is `h`. -/
def builtEntry (sid fn sp : String) (t1 t2 : Time) (h n : Nat) : SessionData :=
  { id := sid
    filename := fn
    storage_path := sp
    document_manager := h
    created_at := t1
    last_modified := t2
    page_count := n
    editor := if n > 0 then some h else none
    page_manipulator := if n > 0 then some h else none
    metadata_editor := if n > 0 then some h else none }

/-- Witness world: one cold session `"a"` whose content file is a 2-page
PDF, plus an unrelated warm-free store row for `"b"` with no file. -/
def wCold : World :=
  { sessions := []
    store := [⟨"a", "f.pdf", "storage/a_f.pdf", 0, 1⟩]
    fs := [("storage/a_f.pdf", .pdf 2)]
    handles := []
    nextHandle := 0
    now := 100 }

/-- A cold session whose record and content file both exist. -/
def wColdFile : World :=
  { sessions := []
    store := [⟨"s", "f.pdf", "storage/s_f.pdf", 0, 0⟩]
    fs := [("storage/s_f.pdf", .pdf 1)]
    handles := []
    nextHandle := 0
    now := 10 }

/-- The cached entry of the warm witness session. -/
def wWarmEntry : SessionData :=
  { id := "s"
    filename := "f.pdf"
    storage_path := "storage/s_f.pdf"
    document_manager := 0
    created_at := 0
    last_modified := 0
    page_count := 1
    editor := some 0
    page_manipulator := some 0
    metadata_editor := some 0 }

/-- A warm session: entry cached, record stored, content file on disk,
handle 0 open with one page. -/
def wWarm : World :=
  { sessions := [("s", wWarmEntry)]
    store := [⟨"s", "f.pdf", "storage/s_f.pdf", 0, 0⟩]
    fs := [("storage/s_f.pdf", .pdf 1)]
    handles := [(0, ⟨1, true⟩)]
    nextHandle := 1
    now := 50 }

/-- The world update `cleanup_stale_sessions` applies per record. -/
def reapStep (c : SessionRecord → Bool) (a : World) (r : SessionRecord) : World :=
  if c r then
    { a with
        fs := fsRemove a.fs r.storage_path
        store := storeDelete a.store r.session_id }
  else a

/-- The file-system component of one reaper step. -/
def fsReapStep (c : SessionRecord → Bool) (fs : FS) (r : SessionRecord) : FS :=
  if c r then fsRemove fs r.storage_path else fs

/-- The store component of one reaper step. -/
def storeReapStep (c : SessionRecord → Bool) (st : Store) (r : SessionRecord) : Store :=
  if c r then storeDelete st r.session_id else st

/-- Reaper witness world: a stale cold record `"old"`, a fresh record
`"new"`, and a stale but warm record `"warm"` (its id is cached). -/
def wReap : World :=
  { sessions := [("warm", wWarmEntry)]
    store :=
      [⟨"old", "o.pdf", "storage/old_o.pdf", 0, 0⟩,
        ⟨"new", "n.pdf", "storage/new_n.pdf", 90, 95⟩,
        ⟨"warm", "w.pdf", "storage/warm_w.pdf", 0, 0⟩]
    fs :=
      [("storage/old_o.pdf", .pdf 1), ("storage/new_n.pdf", .pdf 2),
        ("storage/warm_w.pdf", .pdf 3)]
    handles := [(0, ⟨3, true⟩)]
    nextHandle := 1
    now := 100 }

/-! ### C9 — the hydration race

`get_session`'s cold path is three observable phases executed without any
lock: (1) the membership test `session_id not in sessions`, (2)
`build_session_data`, which opens a fresh document handle, and (3) the
dict write `sessions[session_id] = session`.  We model two concurrent
callers racing on one cold id as an interleaving machine over exactly
those atomic phases.  `openHs` is the set of handles currently open;
the source's hydration path contains no `close_document` call, so the
machine has no closing transition — a displaced handle stays open. -/

/-- The contested session id of the race. -/
def raceId : String := "s"

/-- The `sessions` dict of the race model: id to referenced handle. -/
abbrev RCache := List (String × Nat)

/-- Dict lookup of the race model. -/
def rcGet : RCache → String → Option Nat
  | [], _ => none
  | (k, h) :: rest, sid => if k = sid then some h else rcGet rest sid

/-- Dict assignment of the race model: one slot per key. -/
def rcPut (c : RCache) (sid : String) (h : Nat) : RCache :=
  (sid, h) :: c.filter (fun kv => kv.1 ≠ sid)

/-- Where one caller is inside `get_session`'s cold path. -/
inductive ThreadState where
  | start
  | opening
  | writing (h : Nat)
  | done (h : Nat)
deriving DecidableEq

/-- Whether the caller has returned. -/
def ThreadState.isDone : ThreadState → Bool
  | .done _ => true
  | _ => false

/-- Shared state of the two racing resolvers. -/
structure RaceState where
  cache : RCache
  openHs : List Nat
  nextH : Nat
  t1 : ThreadState
  t2 : ThreadState
deriving DecidableEq

/-- One atomic phase of `get_session` executed by one caller: the
membership test, the document open, or the dict write. -/
def threadStep (g : RaceState) (t : ThreadState) : ThreadState × RaceState :=
  match t with
  | .start =>
      match rcGet g.cache raceId with
      | some h => (.done h, g)
      | none => (.opening, g)
  | .opening =>
      (.writing g.nextH,
        { g with openHs := g.nextH :: g.openHs, nextH := g.nextH + 1 })
  | .writing h => (.done h, { g with cache := rcPut g.cache raceId h })
  | .done h => (.done h, g)

/-- Let the scheduled caller take its next atomic phase. -/
def raceStep (g : RaceState) (first : Bool) : RaceState :=
  if first then
    let p := threadStep g g.t1
    { p.2 with t1 := p.1 }
  else
    let p := threadStep g g.t2
    { p.2 with t2 := p.1 }

/-- Run a schedule of interleaved phases. -/
def runRace (g : RaceState) (sched : List Bool) : RaceState :=
  sched.foldl raceStep g

/-- Both callers about to resolve the same cold id. -/
def raceInit : RaceState :=
  { cache := [], openHs := [], nextH := 0, t1 := .start, t2 := .start }

/-- Invariant of the race machine: the cache holds at most one entry for
the contested id, referencing an open handle; every handle ever issued is
still open (nothing closes them); a caller about to write holds an issued
handle; and a finished caller implies the cache is populated. -/
def RaceInv (g : RaceState) : Prop :=
  (g.cache = [] ∨ ∃ h, g.cache = [(raceId, h)] ∧ h ∈ g.openHs) ∧
  (∀ h, h < g.nextH → h ∈ g.openHs) ∧
  (∀ h, g.t1 = .writing h → h < g.nextH) ∧
  (∀ h, g.t2 = .writing h → h < g.nextH) ∧
  (g.t1.isDone = true → g.cache ≠ []) ∧
  (g.t2.isDone = true → g.cache ≠ [])

/-! ### Basic lemmas about the association-list primitives -/

theorem fsGet_fsRemove_self (fs : FS) (p : String) : fsGet (fsRemove fs p) p = none := by
  induction fs with
  | nil => rfl
  | cons hd tl ih =>
      obtain ⟨q, d⟩ := hd
      by_cases h : q = p <;> simp [fsRemove, fsGet, h, ih]

theorem fsGet_fsRemove_ne (fs : FS) (p q : String) (h : q ≠ p) :
    fsGet (fsRemove fs p) q = fsGet fs q := by
  have hpq : p ≠ q := fun e => h e.symm
  induction fs with
  | nil => rfl
  | cons hd tl ih =>
      obtain ⟨k, d⟩ := hd
      by_cases hk : k = p
      · simp [fsRemove, fsGet, hk, hpq, ih]
      · by_cases hq : k = q <;> simp [fsRemove, fsGet, hk, hq, h, ih]

theorem fsGet_fsRemove_none (fs : FS) (p q : String) (h : fsGet fs q = none) :
    fsGet (fsRemove fs p) q = none := by
  by_cases hpq : q = p
  · subst hpq; exact fsGet_fsRemove_self fs q
  · rw [fsGet_fsRemove_ne fs p q hpq]; exact h

theorem fsGet_fsSet_self (fs : FS) (p : String) (d : FileData) :
    fsGet (fsSet fs p d) p = some d := by
  simp [fsSet, fsGet]

theorem fsGet_fsSet_ne (fs : FS) (p q : String) (d : FileData) (h : q ≠ p) :
    fsGet (fsSet fs p d) q = fsGet fs q := by
  have h1 : p ≠ q := fun e => h e.symm
  simp [fsSet, fsGet, h1, fsGet_fsRemove_ne fs p q h]

theorem cacheGet_cachePut_self (c : Cache) (sid : String) (s : SessionData) :
    cacheGet (cachePut c sid s) sid = some s := by
  simp [cachePut, cacheGet]

theorem cacheGet_cacheRemove_self (c : Cache) (sid : String) :
    cacheGet (cacheRemove c sid) sid = none := by
  induction c with
  | nil => rfl
  | cons hd tl ih =>
      by_cases h : hd.1 = sid <;> simp [cacheRemove, cacheGet, h, ih] at ih ⊢ <;>
        simpa [cacheRemove, h] using ih

theorem storeGet_storeDelete_self (st : Store) (sid : String) :
    storeGet (storeDelete st sid) sid = none := by
  induction st with
  | nil => rfl
  | cons r tl ih =>
      by_cases h : r.session_id = sid <;> simp [storeDelete, storeGet, h] at ih ⊢ <;>
        simpa [storeDelete, h] using ih

theorem storeDelete_of_absent (st : Store) (sid : String) (h : storeGet st sid = none) :
    storeDelete st sid = st := by
  induction st with
  | nil => rfl
  | cons r tl ih =>
      by_cases hr : r.session_id = sid
      · simp [storeGet, hr] at h
      · simp [storeGet, hr] at h
        simp [storeDelete, hr] at ih ⊢
        exact ih h

theorem storeGet_none_iff (st : Store) (sid : String) :
    storeGet st sid = none ↔ ∀ r ∈ st, r.session_id ≠ sid := by
  induction st with
  | nil => simp [storeGet]
  | cons r tl ih =>
      by_cases h : r.session_id = sid <;> simp [storeGet, h, ih]

/-! ### C8 — filename sanitisation and the storage path -/

theorem basenameChars_no_sep (cs : List Char) :
    ∀ acc : List Char, '/' ∉ acc → '/' ∉ basenameChars cs acc := by
  induction cs with
  | nil => intro acc h; simpa [basenameChars] using h
  | cons c rest ih =>
      intro acc h
      by_cases hc : c = '/'
      · simpa [basenameChars, hc] using ih [] (by simp)
      · have hsep : ('/' : Char) ≠ c := fun e => hc e.symm
        simp only [basenameChars, if_neg hc]
        refine ih (acc ++ [c]) ?_
        simp [List.mem_append, h, hsep]

/-- C8: `sanitize_filename` strips every path component — its result contains
no path separator — and `create_session` stores the upload at the content
directory joined with `"{session_id}_{sanitized_filename}"`; whenever the
generated id itself has no separator (uuid4 ids never do), the whole name
under the content directory is separator-free, so the stored file lies
inside the content area. -/
theorem C8_sanitize_and_storage_path (filename session_id : String) :
    '/' ∉ (sanitize_filename filename).data ∧
    storagePathFor session_id filename =
      STORAGE_DIR ++ "/" ++ (session_id ++ "_" ++ sanitize_filename filename) ∧
    ('/' ∉ session_id.data →
      '/' ∉ (session_id ++ "_" ++ sanitize_filename filename).data) := by
  refine ⟨basenameChars_no_sep filename.data [] (by simp), rfl, ?_⟩
  intro hsid
  have hbase : '/' ∉ (sanitize_filename filename).data :=
    basenameChars_no_sep filename.data [] (by simp)
  simp only [String.data_append, List.mem_append]
  rintro (⟨h | h⟩ | h)
  · exact hsid h
  · simp at h
  · exact hbase h

/-- Witness for C8 at a traversal-shaped input. -/
theorem C8_sanitize_and_storage_path_witness :
    '/' ∉ (sanitize_filename "../../etc/passwd").data ∧
    '/' ∉ ("abc-123" ++ "_" ++ sanitize_filename "../../etc/passwd").data :=
  ⟨(C8_sanitize_and_storage_path "../../etc/passwd" "abc-123").1,
    (C8_sanitize_and_storage_path "../../etc/passwd" "abc-123").2.2 (by decide)⟩

/-! ### C4 — `update_last_modified` on an absent id -/

/-- C4 counterexample: the claim says `UpdateLastModified` fails when the id
is absent.  The implementation runs a plain SQL `UPDATE ... WHERE
session_id = ?`; with the id absent the statement matches zero rows and
sqlite reports success — nothing is raised.  On the empty table and id
`"missing"` the operation completes normally and returns the table
unchanged, so the claimed failure does not occur. -/
theorem C4_counterexample :
    storeGet [] "missing" = none ∧
    storeUpdateLastModified [] "missing" 5 = [] := by
  exact ⟨rfl, rfl⟩

/-- C4 amended: `UpdateLastModified(id, t)` is a silent no-op when the id is
absent (it succeeds and leaves the table unchanged); when the id is present
it sets that record's `last_modified` to `t` and leaves every other record,
and every other field, unchanged. -/
theorem C4_update_last_modified (store : Store) (sid : String) (t : Time) :
    (storeGet store sid = none → storeUpdateLastModified store sid t = store) ∧
    (∀ r ∈ store, r.session_id ≠ sid → r ∈ storeUpdateLastModified store sid t) ∧
    (∀ r ∈ store, r.session_id = sid →
      { r with last_modified := t } ∈ storeUpdateLastModified store sid t) := by
  refine ⟨?_, ?_, ?_⟩
  · intro h
    rw [storeGet_none_iff] at h
    induction store with
    | nil => rfl
    | cons r tl ih =>
        have hr : r.session_id ≠ sid := h r (by simp)
        simp only [storeUpdateLastModified, List.map_cons, if_neg hr]
        have := ih (fun x hx => h x (by simp [hx]))
        simpa [storeUpdateLastModified] using this
  · intro r hr hne
    have heq : (if r.session_id = sid then { r with last_modified := t } else r) = r := by
      simp [hne]
    simp only [storeUpdateLastModified, List.mem_map]
    exact ⟨r, hr, heq⟩
  · intro r hr heq
    have hif : (if r.session_id = sid then { r with last_modified := t } else r) =
        { r with last_modified := t } := by simp [heq]
    simp only [storeUpdateLastModified, List.mem_map]
    exact ⟨r, hr, hif⟩

/-- Witness for C4 on a one-row table. -/
theorem C4_update_last_modified_witness :
    (⟨"a", "f.pdf", "storage/a_f.pdf", 0, (9 : Time)⟩ : SessionRecord) ∈
      storeUpdateLastModified [⟨"a", "f.pdf", "storage/a_f.pdf", 0, 1⟩] "a" 9 :=
  (C4_update_last_modified [⟨"a", "f.pdf", "storage/a_f.pdf", 0, 1⟩] "a" 9).2.2
    ⟨"a", "f.pdf", "storage/a_f.pdf", 0, 1⟩ (by simp) rfl

/-! ### Computation lemmas for the loading paths -/

theorem build_session_data_ok (w : World) (sid fn sp : String) (t1 t2 : Time) (n : Nat)
    (h : fsGet w.fs sp = some (.pdf n)) :
    build_session_data w sid fn sp t1 t2 =
      (.ok (builtEntry sid fn sp t1 t2 w.nextHandle n),
        { w with
            handles := (w.nextHandle, ⟨n, true⟩) :: w.handles
            nextHandle := w.nextHandle + 1 }) := by
  simp [build_session_data, openDocument, builtEntry, h]

theorem get_session_hydrates (w : World) (sid : String) (r : SessionRecord) (n : Nat)
    (hc : cacheGet w.sessions sid = none) (hst : storeGet w.store sid = some r)
    (hf : fsGet w.fs r.storage_path = some (.pdf n)) :
    get_session w sid =
      (.ok (builtEntry r.session_id r.filename r.storage_path r.created_at
          r.last_modified w.nextHandle n),
        { w with
            sessions :=
              cachePut w.sessions sid
                (builtEntry r.session_id r.filename r.storage_path r.created_at
                  r.last_modified w.nextHandle n)
            handles := (w.nextHandle, ⟨n, true⟩) :: w.handles
            nextHandle := w.nextHandle + 1 }) := by
  simp [get_session, hc, hst, build_session_data_ok w r.session_id r.filename
    r.storage_path r.created_at r.last_modified n hf]

/-- The helpers of a built entry are bound exactly when the page count is
positive. -/
theorem builtEntry_helpers (sid fn sp : String) (t1 t2 : Time) (h n : Nat) :
    ((builtEntry sid fn sp t1 t2 h n).editor.isSome ↔ 0 < n) ∧
    ((builtEntry sid fn sp t1 t2 h n).page_manipulator.isSome ↔ 0 < n) ∧
    ((builtEntry sid fn sp t1 t2 h n).metadata_editor.isSome ↔ 0 < n) := by
  by_cases hn : 0 < n <;> simp [builtEntry, hn]

/-! ### C5 — Resolve: cache hit, 404 exactly on a missing record, hydration -/

/-- C5: `get_session` returns the cached entry when present; otherwise it
raises 404 exactly when no record exists; and when a record exists and its
content file opens, it builds the entry from the record, caches it, and
returns it. -/
theorem C5_resolve (w : World) (sid : String) :
    (∀ s, cacheGet w.sessions sid = some s → get_session w sid = (.ok s, w)) ∧
    (cacheGet w.sessions sid = none →
      ((get_session w sid).1 = .error .notFound ↔ storeGet w.store sid = none)) ∧
    (cacheGet w.sessions sid = none →
      ∀ r n, storeGet w.store sid = some r → fsGet w.fs r.storage_path = some (.pdf n) →
        ∃ s w', get_session w sid = (.ok s, w') ∧
          cacheGet w'.sessions sid = some s ∧
          s.id = r.session_id ∧ s.filename = r.filename ∧
          s.storage_path = r.storage_path ∧ s.created_at = r.created_at ∧
          s.last_modified = r.last_modified ∧ s.page_count = n) := by
  refine ⟨?_, ?_, ?_⟩
  · intro s h
    simp [get_session, h]
  · intro h
    cases hst : storeGet w.store sid with
    | none => simp [get_session, h, hst]
    | some r =>
        cases hf : fsGet w.fs r.storage_path with
        | none => simp [get_session, h, hst, build_session_data, openDocument, hf]
        | some d =>
            cases d <;>
              simp [get_session, h, hst, build_session_data, openDocument, hf]
  · intro h r n hst hf
    exact ⟨_, _, get_session_hydrates w sid r n h hst hf,
      cacheGet_cachePut_self _ _ _, rfl, rfl, rfl, rfl, rfl, rfl⟩

/-- Witness for C5: hydrating the cold session `"a"` of `wCold` succeeds
and caches an entry with the record's path and the file's page count. -/
theorem C5_resolve_witness :
    ∃ s w', get_session wCold "a" = (.ok s, w') ∧
      cacheGet w'.sessions "a" = some s ∧
      s.id = "a" ∧ s.filename = "f.pdf" ∧ s.storage_path = "storage/a_f.pdf" ∧
      s.created_at = 0 ∧ s.last_modified = 1 ∧ s.page_count = 2 := by
  have h := (C5_resolve wCold "a").2.2 rfl ⟨"a", "f.pdf", "storage/a_f.pdf", 0, 1⟩ 2 rfl rfl
  obtain ⟨s, w', h1, h2, h3, h4, h5, h6, h7, h8⟩ := h
  exact ⟨s, w', h1, h2, by simp [h3], by simp [h4], by simp [h5], h6, h7, h8⟩

/-! ### Computing a successful Create -/

/-- On a readable input PDF, `create_session` copies the content to the
storage path, opens it with a fresh handle, writes the record, caches the
entry, and finally removes the caller's input file.  This lemma computes
the complete result. -/
theorem create_session_ok (w : World) (fp fn sid : String) (n : Nat)
    (h : fsGet w.fs fp = some (.pdf n)) :
    create_session w fp fn sid =
      (.ok sid,
        { sessions :=
            cachePut w.sessions sid
              { id := sid
                filename := sanitize_filename fn
                storage_path := storagePathFor sid fn
                document_manager := w.nextHandle
                created_at := w.now
                last_modified := w.now
                page_count := n
                editor := if n > 0 then some w.nextHandle else none
                page_manipulator := if n > 0 then some w.nextHandle else none
                metadata_editor := if n > 0 then some w.nextHandle else none }
          store :=
            storeSave w.store
              ⟨sid, sanitize_filename fn, storagePathFor sid fn, w.now, w.now⟩
          fs := fsRemove (fsSet w.fs (storagePathFor sid fn) (.pdf n)) fp
          handles := (w.nextHandle, ⟨n, true⟩) :: w.handles
          nextHandle := w.nextHandle + 1
          now := w.now }) := by
  simp [create_session, h, build_session_data, openDocument, fsGet_fsSet_self]

/-! ### C7 — Resolve immediately after Create returns the created entry -/

/-- C7: after a successful Create, an immediate Resolve of the returned id
finds the created entry in the cache and returns it unchanged, with the
`page_count` read at creation and the composed storage path. -/
theorem C7_create_then_resolve (w : World) (fp fn sid : String) (n : Nat)
    (h : fsGet w.fs fp = some (.pdf n)) :
    ∃ s w', create_session w fp fn sid = (.ok sid, w') ∧
      cacheGet w'.sessions sid = some s ∧
      get_session w' sid = (.ok s, w') ∧
      s.page_count = n ∧ s.storage_path = storagePathFor sid fn := by
  refine ⟨_, _, create_session_ok w fp fn sid n h, cacheGet_cachePut_self _ _ _, ?_, ?_, ?_⟩
  · simp [get_session, cacheGet_cachePut_self]
  · rfl
  · rfl

/-- Witness for C7: create from an input file holding a 3-page PDF. -/
theorem C7_create_then_resolve_witness :
    ∃ s w',
      create_session
        { sessions := [], store := [], fs := [("tmp/in.pdf", .pdf 3)],
          handles := [], nextHandle := 0, now := 7 } "tmp/in.pdf" "doc.pdf" "id1" =
        (.ok "id1", w') ∧
      cacheGet w'.sessions "id1" = some s ∧
      get_session w' "id1" = (.ok s, w') ∧
      s.page_count = 3 ∧ s.storage_path = storagePathFor "id1" "doc.pdf" :=
  C7_create_then_resolve _ "tmp/in.pdf" "doc.pdf" "id1" 3 rfl

/-! ### C10 — zero-page documents: entry cached, helpers not constructed -/

/-- C10: a document that opens with zero pages still yields a cached entry
from both Create and Resolve, but its editing helpers are `None`; in
general the helpers are constructed exactly when `page_count > 0`. -/
theorem C10_zero_page_helpers (w : World) (fp fn sid sp : String) (t1 t2 : Time) :
    (∀ n, fsGet w.fs sp = some (.pdf n) →
      ∃ s w', build_session_data w sid fn sp t1 t2 = (.ok s, w') ∧
        s.page_count = n ∧ (s.editor.isSome ↔ 0 < n) ∧
        (s.page_manipulator.isSome ↔ 0 < n) ∧ (s.metadata_editor.isSome ↔ 0 < n)) ∧
    (fsGet w.fs fp = some (.pdf 0) →
      ∃ s w', create_session w fp fn sid = (.ok sid, w') ∧
        cacheGet w'.sessions sid = some s ∧ s.page_count = 0 ∧
        s.editor = none ∧ s.page_manipulator = none ∧ s.metadata_editor = none) ∧
    (∀ r, cacheGet w.sessions sid = none → storeGet w.store sid = some r →
      fsGet w.fs r.storage_path = some (.pdf 0) →
      ∃ s w', get_session w sid = (.ok s, w') ∧ cacheGet w'.sessions sid = some s ∧
        s.page_count = 0 ∧ s.editor = none ∧ s.page_manipulator = none ∧
        s.metadata_editor = none) := by
  refine ⟨?_, ?_, ?_⟩
  · intro n hf
    obtain ⟨h1, h2, h3⟩ := builtEntry_helpers sid fn sp t1 t2 w.nextHandle n
    exact ⟨_, _, build_session_data_ok w sid fn sp t1 t2 n hf, rfl, h1, h2, h3⟩
  · intro hf
    refine ⟨_, _, create_session_ok w fp fn sid 0 hf, cacheGet_cachePut_self _ _ _,
      ?_, ?_, ?_, ?_⟩ <;> rfl
  · intro r hc hst hf
    refine ⟨_, _, get_session_hydrates w sid r 0 hc hst hf,
      cacheGet_cachePut_self _ _ _, ?_, ?_, ?_, ?_⟩ <;> rfl

/-- Witness for C10: a zero-page input PDF still creates a session. -/
theorem C10_zero_page_helpers_witness :
    ∃ s w',
      create_session
        { sessions := [], store := [], fs := [("tmp/z.pdf", .pdf 0)],
          handles := [], nextHandle := 0, now := 7 } "tmp/z.pdf" "z.pdf" "id9" =
        (.ok "id9", w') ∧
      cacheGet w'.sessions "id9" = some s ∧ s.page_count = 0 ∧
      s.editor = none ∧ s.page_manipulator = none ∧ s.metadata_editor = none :=
  (C10_zero_page_helpers
    { sessions := [], store := [], fs := [("tmp/z.pdf", .pdf 0)],
      handles := [], nextHandle := 0, now := 7 } "tmp/z.pdf" "z.pdf" "id9" "" 0 0).2.1 rfl

/-! ### C6 — Create cleans up after itself -/

/-- C6: `create_session` always removes the caller's input file before
returning; and when the copied content fails to open as a document (the
failure mode between copy-in and record persistence), it raises the load
error, removes the copied file — leaving no orphan at the storage path —
and leaves the durable store and the cache untouched. -/
theorem C6_create_cleanup (w : World) (fp fn sid : String) :
    fsGet (create_session w fp fn sid).2.fs fp = none ∧
    (fsGet w.fs fp = some .invalid →
      (create_session w fp fn sid).1 = .error .loadError ∧
      fsGet (create_session w fp fn sid).2.fs (storagePathFor sid fn) = none ∧
      (create_session w fp fn sid).2.store = w.store ∧
      (create_session w fp fn sid).2.sessions = w.sessions) := by
  constructor
  · cases hf : fsGet w.fs fp with
    | none => simp [create_session, hf]
    | some d =>
        cases d with
        | pdf n =>
            rw [create_session_ok w fp fn sid n hf]
            exact fsGet_fsRemove_self _ _
        | invalid =>
            simp [create_session, hf, build_session_data, openDocument,
              fsGet_fsSet_self, fsGet_fsRemove_self]
  · intro hf
    refine ⟨?_, ?_, ?_, ?_⟩ <;>
      simp [create_session, hf, build_session_data, openDocument,
        fsGet_fsSet_self, fsGet_fsRemove_self, fsGet_fsRemove_none]

/-- Witness for C6: creating from an input file with invalid bytes fails,
removes both the copied file and the input file, and leaves store and
cache empty. -/
theorem C6_create_cleanup_witness :
    fsGet
      (create_session
        { sessions := [], store := [], fs := [("tmp/bad.bin", .invalid)],
          handles := [], nextHandle := 0, now := 7 } "tmp/bad.bin" "bad.pdf" "id2").2.fs
      "tmp/bad.bin" = none ∧
    (create_session
      { sessions := [], store := [], fs := [("tmp/bad.bin", .invalid)],
        handles := [], nextHandle := 0, now := 7 } "tmp/bad.bin" "bad.pdf" "id2").1 =
      .error .loadError :=
  ⟨(C6_create_cleanup
      { sessions := [], store := [], fs := [("tmp/bad.bin", .invalid)],
        handles := [], nextHandle := 0, now := 7 } "tmp/bad.bin" "bad.pdf" "id2").1,
    ((C6_create_cleanup
      { sessions := [], store := [], fs := [("tmp/bad.bin", .invalid)],
        handles := [], nextHandle := 0, now := 7 } "tmp/bad.bin" "bad.pdf" "id2").2 rfl).1⟩

/-! ### C1 — Delete -/

theorem handleLookup_closeHandle (hs : Handles) (h : Nat) (st : HandleState)
    (hl : handleLookup hs h = some st) :
    handleLookup (closeHandle hs h) h = some { st with isOpen := false } := by
  induction hs with
  | nil => simp [handleLookup] at hl
  | cons hd tl ih =>
      obtain ⟨k, s0⟩ := hd
      by_cases hk : k = h
      · simp [handleLookup, hk] at hl
        simp [closeHandle, handleLookup, hk, hl]
      · simp [handleLookup, hk] at hl
        simp [closeHandle, handleLookup, hk]
        exact ih hl

/-- C1 counterexample: the claim says Delete removes the content file
whether the session is warm or cold.  Deleting the cold session `"s"` of
`wColdFile` removes the metadata record but leaves the content file on
disk: `delete_session` only removes the file inside its warm branch
(`if session_id in sessions`), and a cold id skips that branch. -/
theorem C1_counterexample :
    cacheGet wColdFile.sessions "s" = none ∧
    storeGet (delete_session wColdFile "s").store "s" = none ∧
    fsGet (delete_session wColdFile "s").fs "storage/s_f.pdf" = some (.pdf 1) := by
  exact ⟨rfl, rfl, rfl⟩

/-- C1 amended: Delete always removes the cache entry and the metadata
record, and is idempotent; when the session is warm it also closes the
handle and removes its content file, but when the session is cold the
content file is left in place (only the record is deleted). -/
theorem C1_delete (w : World) (sid : String) :
    cacheGet (delete_session w sid).sessions sid = none ∧
    storeGet (delete_session w sid).store sid = none ∧
    (∀ s, cacheGet w.sessions sid = some s →
      fsGet (delete_session w sid).fs s.storage_path = none ∧
      ∀ st, handleLookup w.handles s.document_manager = some st →
        handleLookup (delete_session w sid).handles s.document_manager =
          some { st with isOpen := false }) ∧
    (cacheGet w.sessions sid = none →
      (delete_session w sid).fs = w.fs ∧
      (delete_session w sid).handles = w.handles ∧
      (delete_session w sid).sessions = w.sessions) ∧
    delete_session (delete_session w sid) sid = delete_session w sid := by
  have habsent : ∀ v : World, cacheGet v.sessions sid = none →
      storeGet v.store sid = none → delete_session v sid = v := by
    intro v hc hst
    simp [delete_session, hc, storeDelete_of_absent v.store sid hst]
  have h1 : cacheGet (delete_session w sid).sessions sid = none := by
    cases hc : cacheGet w.sessions sid <;>
      simp [delete_session, hc, cacheGet_cacheRemove_self]
  have h2 : storeGet (delete_session w sid).store sid = none := by
    cases hc : cacheGet w.sessions sid <;>
      simp [delete_session, hc, storeGet_storeDelete_self]
  refine ⟨h1, h2, ?_, ?_, habsent _ h1 h2⟩
  · intro s hs
    refine ⟨?_, ?_⟩
    · simp [delete_session, hs, fsGet_fsRemove_self]
    · intro st hst
      simp [delete_session, hs]
      exact handleLookup_closeHandle w.handles s.document_manager st hst
  · intro hc
    simp [delete_session, hc]

/-- Witness for C1: deleting the warm session of `wWarm` empties the
cache, the store, removes the content file and closes the handle, and a
second delete is a no-op. -/
theorem C1_delete_witness :
    cacheGet (delete_session wWarm "s").sessions "s" = none ∧
    storeGet (delete_session wWarm "s").store "s" = none ∧
    fsGet (delete_session wWarm "s").fs "storage/s_f.pdf" = none ∧
    handleLookup (delete_session wWarm "s").handles 0 = some ⟨1, false⟩ ∧
    delete_session (delete_session wWarm "s") "s" = delete_session wWarm "s" := by
  obtain ⟨h1, h2, h3, -, h5⟩ := C1_delete wWarm "s"
  obtain ⟨h3a, h3b⟩ := h3 wWarmEntry rfl
  exact ⟨h1, h2, h3a, h3b ⟨1, true⟩ rfl, h5⟩

/-! ### C3 — Persist: temp-file save, atomic rename, ordered durable update -/

theorem append_tmp_ne (s : String) : s ++ ".tmp" ≠ s := by
  intro h
  have hlen := congrArg String.length h
  simp [String.length_append] at hlen
  exact absurd hlen (by decide)

theorem tracedAfter_save_replace_update (h : Nat) (tp sp sid : String) (t : Time) :
    tracedAfter [.savePdf h tp, .replaceFile tp sp, .storeUpdateLM sid t]
      Ev.isReplace Ev.isStoreUpdate := by
  intro i j hp hq
  fin_cases i <;> fin_cases j <;> simp_all [Ev.isReplace, Ev.isStoreUpdate]

/-- C3: for a warm session, a failed save removes the temporary file and
re-raises, leaving the content file, the cache entry and the durable
record exactly as they were; a successful persist writes the document to
the temporary path, renames it over the storage path (the temporary is
gone, the storage path holds the freshly saved document), updates the
entry's `last_modified`/`page_count`, and performs the durable
`last_modified` update strictly after the rename in its effect trace. -/
theorem C3_persist (w : World) (sid : String) (s : SessionData) (saveOk : Bool)
    (hs : cacheGet w.sessions sid = some s) :
    (saveOk = false →
      persist_session_document w sid saveOk =
        (.error .saveError,
          { w with fs := fsRemove w.fs (s.storage_path ++ ".tmp") },
          [.removeFile (s.storage_path ++ ".tmp")]) ∧
      fsGet (persist_session_document w sid saveOk).2.1.fs s.storage_path =
        fsGet w.fs s.storage_path ∧
      (persist_session_document w sid saveOk).2.1.sessions = w.sessions ∧
      (persist_session_document w sid saveOk).2.1.store = w.store ∧
      fsGet (persist_session_document w sid saveOk).2.1.fs (s.storage_path ++ ".tmp") =
        none) ∧
    (saveOk = true →
      persist_session_document w sid saveOk =
        (.ok { s with
                 last_modified := w.now
                 page_count := handlePages w.handles s.document_manager },
          { w with
              fs :=
                fsReplace (fsSet w.fs (s.storage_path ++ ".tmp")
                    (.pdf (handlePages w.handles s.document_manager)))
                  (s.storage_path ++ ".tmp") s.storage_path
              sessions :=
                cachePut w.sessions sid
                  { s with
                      last_modified := w.now
                      page_count := handlePages w.handles s.document_manager }
              store := storeUpdateLastModified w.store sid w.now },
          [.savePdf s.document_manager (s.storage_path ++ ".tmp"),
            .replaceFile (s.storage_path ++ ".tmp") s.storage_path,
            .storeUpdateLM sid w.now]) ∧
      fsGet (persist_session_document w sid saveOk).2.1.fs s.storage_path =
        some (.pdf (handlePages w.handles s.document_manager)) ∧
      fsGet (persist_session_document w sid saveOk).2.1.fs (s.storage_path ++ ".tmp") =
        none ∧
      tracedAfter (persist_session_document w sid saveOk).2.2
        Ev.isReplace Ev.isStoreUpdate) := by
  have htmp := append_tmp_ne s.storage_path
  constructor
  · intro hok
    subst hok
    have heq : persist_session_document w sid false =
        (.error .saveError,
          { w with fs := fsRemove w.fs (s.storage_path ++ ".tmp") },
          [.removeFile (s.storage_path ++ ".tmp")]) := by
      simp [persist_session_document, get_session, hs]
    refine ⟨heq, ?_, ?_, ?_, ?_⟩
    · rw [heq]
      exact fsGet_fsRemove_ne w.fs _ _ (fun e => htmp e.symm)
    · rw [heq]
    · rw [heq]
    · rw [heq]
      exact fsGet_fsRemove_self _ _
  · intro hok
    subst hok
    have heq : persist_session_document w sid true =
        (.ok { s with
                 last_modified := w.now
                 page_count := handlePages w.handles s.document_manager },
          { w with
              fs :=
                fsReplace (fsSet w.fs (s.storage_path ++ ".tmp")
                    (.pdf (handlePages w.handles s.document_manager)))
                  (s.storage_path ++ ".tmp") s.storage_path
              sessions :=
                cachePut w.sessions sid
                  { s with
                      last_modified := w.now
                      page_count := handlePages w.handles s.document_manager }
              store := storeUpdateLastModified w.store sid w.now },
          [.savePdf s.document_manager (s.storage_path ++ ".tmp"),
            .replaceFile (s.storage_path ++ ".tmp") s.storage_path,
            .storeUpdateLM sid w.now]) := by
      simp [persist_session_document, get_session, hs]
    have hrep :
        fsReplace (fsSet w.fs (s.storage_path ++ ".tmp")
            (.pdf (handlePages w.handles s.document_manager)))
          (s.storage_path ++ ".tmp") s.storage_path =
        fsSet (fsRemove (fsSet w.fs (s.storage_path ++ ".tmp")
            (.pdf (handlePages w.handles s.document_manager)))
            (s.storage_path ++ ".tmp"))
          s.storage_path (.pdf (handlePages w.handles s.document_manager)) := by
      simp [fsReplace, fsGet_fsSet_self]
    refine ⟨heq, ?_, ?_, ?_⟩
    · rw [heq]
      simp only [hrep]
      exact fsGet_fsSet_self _ _ _
    · rw [heq]
      simp only [hrep]
      rw [fsGet_fsSet_ne _ _ _ _ htmp]
      exact fsGet_fsRemove_self _ _
    · rw [heq]
      exact tracedAfter_save_replace_update _ _ _ _ _

/-- Witness for C3: persisting the warm session of `wWarm`, with the save
succeeding, leaves the saved document at the storage path, no temporary
file, and a trace whose durable update follows the rename; with the save
failing, everything is unchanged and the temporary is gone. -/
theorem C3_persist_witness :
    fsGet (persist_session_document wWarm "s" true).2.1.fs "storage/s_f.pdf" =
      some (.pdf 1) ∧
    fsGet (persist_session_document wWarm "s" true).2.1.fs "storage/s_f.pdf.tmp" = none ∧
    tracedAfter (persist_session_document wWarm "s" true).2.2
      Ev.isReplace Ev.isStoreUpdate ∧
    (persist_session_document wWarm "s" false).2.1.sessions = wWarm.sessions ∧
    (persist_session_document wWarm "s" false).2.1.store = wWarm.store := by
  obtain ⟨hfail, hokpart⟩ := C3_persist wWarm "s" wWarmEntry true rfl
  obtain ⟨heq, hsp, htmp, htr⟩ := hokpart rfl
  obtain ⟨hfail2, hokpart2⟩ := C3_persist wWarm "s" wWarmEntry false rfl
  obtain ⟨heq2, hsp2, hsess2, hst2, htmp2⟩ := hfail2 rfl
  exact ⟨hsp, htmp, htr, hsess2, hst2⟩

/-! ### C2 — ReapStale -/

theorem cleanup_eq_foldl (w : World) (ttl : Time) :
    cleanup_stale_sessions w ttl =
      w.store.foldl (reapStep (staleCold w.sessions (w.now - ttl))) w := rfl

theorem reapFold_fs (c : SessionRecord → Bool) (L : List SessionRecord) :
    ∀ a : World, (L.foldl (reapStep c) a).fs = L.foldl (fsReapStep c) a.fs := by
  induction L with
  | nil => intro a; rfl
  | cons r L ih =>
      intro a
      by_cases hc : c r <;> simp [List.foldl_cons, reapStep, fsReapStep, hc, ih]

theorem reapFold_store (c : SessionRecord → Bool) (L : List SessionRecord) :
    ∀ a : World, (L.foldl (reapStep c) a).store = L.foldl (storeReapStep c) a.store := by
  induction L with
  | nil => intro a; rfl
  | cons r L ih =>
      intro a
      by_cases hc : c r <;> simp [List.foldl_cons, reapStep, storeReapStep, hc, ih]

theorem reapFold_sessions (c : SessionRecord → Bool) (L : List SessionRecord) :
    ∀ a : World, (L.foldl (reapStep c) a).sessions = a.sessions := by
  induction L with
  | nil => intro a; rfl
  | cons r L ih =>
      intro a
      by_cases hc : c r <;> simp [List.foldl_cons, reapStep, hc, ih]

theorem fsReapFold_none (c : SessionRecord → Bool) (L : List SessionRecord) :
    ∀ fs p, fsGet fs p = none → fsGet (L.foldl (fsReapStep c) fs) p = none := by
  induction L with
  | nil => intro fs p h; exact h
  | cons r L ih =>
      intro fs p h
      by_cases hc : c r <;>
        simp [List.foldl_cons, fsReapStep, hc, ih, ih _ _ (fsGet_fsRemove_none fs _ p h), h]

theorem fsReapFold_reaped (c : SessionRecord → Bool) (L : List SessionRecord) :
    ∀ fs r, r ∈ L → c r = true → fsGet (L.foldl (fsReapStep c) fs) r.storage_path = none := by
  induction L with
  | nil => intro fs r h; simp at h
  | cons hd L ih =>
      intro fs r hmem hc
      rcases List.mem_cons.mp hmem with heq | htl
      · subst heq
        simp only [List.foldl_cons, fsReapStep, if_pos hc]
        exact fsReapFold_none c L _ _ (fsGet_fsRemove_self fs r.storage_path)
      · by_cases hhd : c hd <;>
          simp [List.foldl_cons, fsReapStep, hhd, ih _ r htl hc]

theorem fsReapFold_untouched (c : SessionRecord → Bool) (L : List SessionRecord) :
    ∀ fs p, (∀ r ∈ L, c r = true → r.storage_path ≠ p) →
      fsGet (L.foldl (fsReapStep c) fs) p = fsGet fs p := by
  induction L with
  | nil => intro fs p _; rfl
  | cons hd L ih =>
      intro fs p h
      have htl : ∀ r ∈ L, c r = true → r.storage_path ≠ p :=
        fun r hr => h r (List.mem_cons_of_mem hd hr)
      by_cases hhd : c hd
      · have hne : p ≠ hd.storage_path := fun e => h hd (by simp) hhd e.symm
        simp [List.foldl_cons, fsReapStep, hhd, ih _ _ htl,
          fsGet_fsRemove_ne fs hd.storage_path p hne]
      · simp [List.foldl_cons, fsReapStep, hhd, ih _ _ htl]

theorem storeReapFold_filter (c : SessionRecord → Bool) (L : List SessionRecord) :
    ∀ st : Store, L.foldl (storeReapStep c) st =
      st.filter (fun x => !(L.any (fun r => c r && (r.session_id = x.session_id)))) := by
  induction L with
  | nil => intro st; simp
  | cons r L ih =>
      intro st
      by_cases hc : c r
      · simp only [List.foldl_cons, storeReapStep, if_pos hc, ih, storeDelete]
        rw [List.filter_filter]
        apply List.filter_congr
        intro x hx
        by_cases hx1 : r.session_id = x.session_id <;> simp [hc, hx1, eq_comm]
      · simp only [List.foldl_cons, storeReapStep, if_neg hc, ih]
        apply List.filter_congr
        intro x hx
        simp [hc]

theorem storeReapFold_keeps (c : SessionRecord → Bool) (L : List SessionRecord)
    (st : Store) (x : SessionRecord) (hx : x ∈ st)
    (h : ∀ r, c r = true → r.session_id ≠ x.session_id) :
    x ∈ L.foldl (storeReapStep c) st := by
  rw [storeReapFold_filter]
  rw [List.mem_filter]
  refine ⟨hx, ?_⟩
  simp only [Bool.not_eq_true', List.any_eq_false]
  intro r hr
  by_cases hc : c r
  · simp [hc, h r hc]
  · simp [hc]

/-- C2: ReapStale removes the content file of every stale cold record and
touches no other file; it never deletes a warm record, whatever its age;
and (with the primary-key uniqueness of ids) the surviving table is
exactly the records that are not stale-and-cold — a record is reaped iff
its `last_modified` is strictly older than `now - ttl` and it has no live
cache entry.  The cache itself is untouched. -/
theorem C2_reap_stale (w : World) (ttl : Time) :
    (∀ r ∈ w.store, staleCold w.sessions (w.now - ttl) r = true →
      fsGet (cleanup_stale_sessions w ttl).fs r.storage_path = none) ∧
    (∀ p, (∀ r ∈ w.store, staleCold w.sessions (w.now - ttl) r = true →
        r.storage_path ≠ p) →
      fsGet (cleanup_stale_sessions w ttl).fs p = fsGet w.fs p) ∧
    (∀ r ∈ w.store, cacheGet w.sessions r.session_id ≠ none →
      r ∈ (cleanup_stale_sessions w ttl).store) ∧
    ((w.store.map SessionRecord.session_id).Nodup →
      (cleanup_stale_sessions w ttl).store =
        w.store.filter (fun r => !staleCold w.sessions (w.now - ttl) r)) ∧
    (cleanup_stale_sessions w ttl).sessions = w.sessions := by
  have hfs : (cleanup_stale_sessions w ttl).fs =
      w.store.foldl (fsReapStep (staleCold w.sessions (w.now - ttl))) w.fs := by
    rw [cleanup_eq_foldl, reapFold_fs]
  have hst : (cleanup_stale_sessions w ttl).store =
      w.store.foldl (storeReapStep (staleCold w.sessions (w.now - ttl))) w.store := by
    rw [cleanup_eq_foldl, reapFold_store]
  refine ⟨?_, ?_, ?_, ?_, ?_⟩
  · intro r hr hc
    rw [hfs]
    exact fsReapFold_reaped _ w.store w.fs r hr hc
  · intro p hp
    rw [hfs]
    exact fsReapFold_untouched _ w.store w.fs p hp
  · intro r hr hwarm
    rw [hst]
    refine storeReapFold_keeps _ w.store w.store r hr ?_
    intro x hx hxe
    rw [staleCold, Bool.and_eq_true, Option.isNone_iff_eq_none] at hx
    rw [hxe] at hx
    exact hwarm hx.2
  · intro hnodup
    rw [hst, storeReapFold_filter]
    apply List.filter_congr
    intro x hx
    have hany : (w.store.any fun r =>
        staleCold w.sessions (w.now - ttl) r && (r.session_id = x.session_id)) =
        staleCold w.sessions (w.now - ttl) x := by
      by_cases hcx : staleCold w.sessions (w.now - ttl) x = true
      · rw [hcx, List.any_eq_true]
        exact ⟨x, hx, by simp [hcx]⟩
      · rw [Bool.not_eq_true] at hcx
        rw [hcx, List.any_eq_false]
        intro r hr hcontra
        rw [Bool.and_eq_true, decide_eq_true_eq] at hcontra
        have hrx : r = x := List.inj_on_of_nodup_map hnodup hr hx hcontra.2
        rw [hrx, hcx] at hcontra
        exact absurd hcontra.1 (by decide)
    rw [hany]
  · rw [cleanup_eq_foldl, reapFold_sessions]

/-- Witness for C2 on `wReap` with TTL 50: the stale cold session's file is
removed, the fresh session's file is untouched, the warm stale record
survives, and the surviving table is the filter of the original. -/
theorem C2_reap_stale_witness :
    fsGet (cleanup_stale_sessions wReap 50).fs "storage/old_o.pdf" = none ∧
    fsGet (cleanup_stale_sessions wReap 50).fs "storage/new_n.pdf" =
      fsGet wReap.fs "storage/new_n.pdf" ∧
    (⟨"warm", "w.pdf", "storage/warm_w.pdf", 0, 0⟩ : SessionRecord) ∈
      (cleanup_stale_sessions wReap 50).store ∧
    (cleanup_stale_sessions wReap 50).store =
      wReap.store.filter (fun r => !staleCold wReap.sessions (wReap.now - 50) r) := by
  obtain ⟨h1, h2, h3, h4, -⟩ := C2_reap_stale wReap 50
  exact ⟨h1 ⟨"old", "o.pdf", "storage/old_o.pdf", 0, 0⟩ (by decide) (by decide),
    h2 "storage/new_n.pdf" (by decide),
    h3 ⟨"warm", "w.pdf", "storage/warm_w.pdf", 0, 0⟩ (by decide) (by decide),
    h4 (by decide)⟩

theorem RaceInv_init : RaceInv raceInit := by
  refine ⟨Or.inl rfl, ?_, ?_, ?_, ?_, ?_⟩ <;> simp [raceInit, ThreadState.isDone]

theorem rcPut_shape (c : RCache) (h : Nat)
    (hc : c = [] ∨ ∃ h0, c = [(raceId, h0)] ∧ True) :
    rcPut c raceId h = [(raceId, h)] := by
  rcases hc with hnil | ⟨h0, hsh, -⟩
  · simp [rcPut, hnil]
  · simp [rcPut, hsh]

theorem RaceInv_step (g : RaceState) (b : Bool) (hg : RaceInv g) :
    RaceInv (raceStep g b) := by
  obtain ⟨hc, ho, hw1, hw2, hd1, hd2⟩ := hg
  have hshape : g.cache = [] ∨ ∃ h0, g.cache = [(raceId, h0)] ∧ True := by
    rcases hc with hnil | ⟨h0, hsh, -⟩
    · exact Or.inl hnil
    · exact Or.inr ⟨h0, hsh, trivial⟩
  have hgrow : ∀ h : Nat, h < g.nextH + 1 → h ∈ g.nextH :: g.openHs := by
    intro h hlt
    rcases Nat.lt_succ_iff_lt_or_eq.mp hlt with hlt' | heq
    · exact List.mem_cons_of_mem _ (ho h hlt')
    · exact heq ▸ List.mem_cons_self _ _
  have hcgrow : g.cache = [] ∨
      ∃ h, g.cache = [(raceId, h)] ∧ h ∈ g.nextH :: g.openHs := by
    rcases hc with hnil | ⟨h, hsh, hmem⟩
    · exact Or.inl hnil
    · exact Or.inr ⟨h, hsh, List.mem_cons_of_mem _ hmem⟩
  cases b
  case false =>
    cases ht : g.t2 with
    | start =>
        cases hrc : rcGet g.cache raceId with
        | none =>
            have hst : raceStep g false = { g with t2 := .opening } := by
              simp [raceStep, threadStep, ht, hrc]
            rw [hst]
            exact ⟨hc, ho, hw1, by simp, hd1, by simp [ThreadState.isDone]⟩
        | some h =>
            have hne : g.cache ≠ [] := by
              intro hnil
              rw [hnil] at hrc
              simp [rcGet] at hrc
            have hst : raceStep g false = { g with t2 := .done h } := by
              simp [raceStep, threadStep, ht, hrc]
            rw [hst]
            exact ⟨hc, ho, hw1, by simp, hd1, fun _ => hne⟩
    | opening =>
        have hst : raceStep g false =
            { g with
                openHs := g.nextH :: g.openHs
                nextH := g.nextH + 1
                t2 := .writing g.nextH } := by
          simp [raceStep, threadStep, ht]
        rw [hst]
        refine ⟨hcgrow, hgrow, fun h hwr => Nat.lt_succ_of_lt (hw1 h hwr), ?_, hd1,
          by simp [ThreadState.isDone]⟩
        intro h hwr
        have hh : g.nextH = h := by injection hwr
        show h < g.nextH + 1
        omega
    | writing h =>
        have hmem : h ∈ g.openHs := ho h (hw2 h ht)
        have hput := rcPut_shape g.cache h hshape
        have hst : raceStep g false =
            { g with cache := rcPut g.cache raceId h, t2 := .done h } := by
          simp [raceStep, threadStep, ht]
        rw [hst]
        refine ⟨Or.inr ⟨h, by simp [hput], hmem⟩, ho, hw1, by simp, ?_, ?_⟩
        · intro _; simp [hput]
        · intro _; simp [hput]
    | done h =>
        have hst : raceStep g false = { g with t2 := .done h } := by
          simp [raceStep, threadStep, ht]
        rw [hst]
        exact ⟨hc, ho, hw1, by simp, hd1, fun _ => hd2 (by rw [ht]; rfl)⟩
  case true =>
    cases ht : g.t1 with
    | start =>
        cases hrc : rcGet g.cache raceId with
        | none =>
            have hst : raceStep g true = { g with t1 := .opening } := by
              simp [raceStep, threadStep, ht, hrc]
            rw [hst]
            exact ⟨hc, ho, by simp, hw2, by simp [ThreadState.isDone], hd2⟩
        | some h =>
            have hne : g.cache ≠ [] := by
              intro hnil
              rw [hnil] at hrc
              simp [rcGet] at hrc
            have hst : raceStep g true = { g with t1 := .done h } := by
              simp [raceStep, threadStep, ht, hrc]
            rw [hst]
            exact ⟨hc, ho, by simp, hw2, fun _ => hne, hd2⟩
    | opening =>
        have hst : raceStep g true =
            { g with
                openHs := g.nextH :: g.openHs
                nextH := g.nextH + 1
                t1 := .writing g.nextH } := by
          simp [raceStep, threadStep, ht]
        rw [hst]
        refine ⟨hcgrow, hgrow, ?_, fun h hwr => Nat.lt_succ_of_lt (hw2 h hwr),
          by simp [ThreadState.isDone], hd2⟩
        intro h hwr
        have hh : g.nextH = h := by injection hwr
        show h < g.nextH + 1
        omega
    | writing h =>
        have hmem : h ∈ g.openHs := ho h (hw1 h ht)
        have hput := rcPut_shape g.cache h hshape
        have hst : raceStep g true =
            { g with cache := rcPut g.cache raceId h, t1 := .done h } := by
          simp [raceStep, threadStep, ht]
        rw [hst]
        refine ⟨Or.inr ⟨h, by simp [hput], hmem⟩, ho, by simp, hw2, ?_, ?_⟩
        · intro _; simp [hput]
        · intro _; simp [hput]
    | done h =>
        have hst : raceStep g true = { g with t1 := .done h } := by
          simp [raceStep, threadStep, ht]
        rw [hst]
        exact ⟨hc, ho, by simp, hw2, fun _ => hd1 (by rw [ht]; rfl), hd2⟩

theorem RaceInv_run (sched : List Bool) :
    ∀ g : RaceState, RaceInv g → RaceInv (runRace g sched) := by
  induction sched with
  | nil => intro g hg; exact hg
  | cons b s ih =>
      intro g hg
      exact ih (raceStep g b) (RaceInv_step g b hg)

/-- C9 counterexample: under the fully interleaved schedule (both callers
pass the membership test, both open, both write), the cache ends with
exactly one entry — the second writer's handle 1 — but the displaced
handle 0 is still open: the hydration path of `get_session` never closes
the handle it overwrites, so the claimed closing does not happen. -/
theorem C9_counterexample :
    rcGet (runRace raceInit [true, false, true, false, true, false]).cache raceId =
      some 1 ∧
    0 ∈ (runRace raceInit [true, false, true, false, true, false]).openHs ∧
    (runRace raceInit [true, false, true, false, true, false]).openHs = [1, 0] := by
  decide

/-- C9 amended: after any schedule under which both racing resolvers have
finished, the cache holds exactly one entry for the contested id and that
entry references an open handle; but every handle issued during the race
is still open — the displaced duplicate handle is dropped from the cache
without being closed. -/
theorem C9_race (sched : List Bool)
    (h1 : (runRace raceInit sched).t1.isDone = true)
    (_h2 : (runRace raceInit sched).t2.isDone = true) :
    (∃ h, (runRace raceInit sched).cache = [(raceId, h)] ∧
      h ∈ (runRace raceInit sched).openHs) ∧
    (∀ h, h < (runRace raceInit sched).nextH →
      h ∈ (runRace raceInit sched).openHs) := by
  have hinv : RaceInv (runRace raceInit sched) :=
    RaceInv_run sched raceInit RaceInv_init
  obtain ⟨hc, ho, -, -, hd1, -⟩ := hinv
  rcases hc with hnil | hone
  · exact absurd hnil (hd1 h1)
  · exact ⟨hone, ho⟩

/-- Witness for C9 at the fully interleaved schedule. -/
theorem C9_race_witness :
    (∃ h, (runRace raceInit [true, false, true, false, true, false]).cache =
        [(raceId, h)] ∧
      h ∈ (runRace raceInit [true, false, true, false, true, false]).openHs) ∧
    (∀ h, h < (runRace raceInit [true, false, true, false, true, false]).nextH →
      h ∈ (runRace raceInit [true, false, true, false, true, false]).openHs) :=
  C9_race [true, false, true, false, true, false] (by decide) (by decide)

end PdfSmartEditor
